import Mathlib

/-!
Verification development for the Optimus client (Go sources):

* `store/local` job specification adapter: the hybrid month/duration
  grammar (`tryParsingInMonths` with `time.ParseDuration` fallback),
  `Job.prepareWindow`, `JobSpecAdapter.ToSpec` / `FromSpec`;
* `cmd/opctl/commands/deploy.go`: `postDeploymentRequest` and its
  streaming acknowledgment consumer.

Go machine integers are embedded as `Nat`/`Int` with explicit `int64`
range checks and wrap-around where the Go code has them.
-/

namespace Optimus

/-! ### Go integer and duration primitives -/

deriving instance DecidableEq for Except

/-- Two's-complement wrap-around to the `int64` range, used where Go
arithmetic on `time.Duration` values overflows silently. -/
def wrap64 (n : Int) : Int := (n + 2 ^ 63) % 2 ^ 64 - 2 ^ 63

/-- A Go `time.Duration` is an `int64` count of nanoseconds. -/
abbrev Duration := Int

def Second : Int := 1000000000

def Minute : Int := 60 * Second

def Hour : Int := 60 * Minute

/-- `HoursInMonth = time.Duration(30) * 24 * time.Hour` (store/local). -/
def HoursInMonth : Int := 30 * 24 * Hour

/-! ### Characters and whitespace -/

def isDigitChar (c : Char) : Bool := '0' ≤ c && c ≤ '9'

def digitVal (c : Char) : Nat := c.toNat - 48

def digitChar (n : Nat) : Char := Char.ofNat (48 + n)

/-- Go `unicode.IsSpace`: the Latin-1 white space characters together
with the Unicode `White_Space` code points outside Latin-1. -/
def isGoSpace (c : Char) : Bool :=
  c = ' ' || c = '\t' || c = '\n' || c.toNat = 11 || c.toNat = 12 || c = '\r' ||
  c.toNat = 0x85 || c.toNat = 0xA0 ||
  c.toNat = 0x1680 || (0x2000 ≤ c.toNat && c.toNat ≤ 0x200A) ||
  c.toNat = 0x2028 || c.toNat = 0x2029 || c.toNat = 0x202F ||
  c.toNat = 0x205F || c.toNat = 0x3000

/-- Go `strings.TrimSpace` on a character list: drop white space from
both ends. -/
def trimSpaceL (s : List Char) : List Char :=
  ((s.dropWhile isGoSpace).reverse.dropWhile isGoSpace).reverse

/-- Go `strings.TrimSpace`. -/
def trimSpace (s : String) : String := String.mk (trimSpaceL s.toList)

/-! ### The month token regexp

`monthExp = regexp.MustCompile("(\\+|-)?([0-9]+)(M)")` in `store/local`.
A match of this pattern is an optional sign, a maximal run of ASCII
digits, then a literal `M`; Go's scan finds the leftmost match, and
`FindAll`/`ReplaceAll` continue after the end of each match. -/

/-- Split a maximal leading run of ASCII digits off a character list. -/
def spanDigits (s : List Char) : List Char × List Char :=
  (s.takeWhile isDigitChar, s.dropWhile isDigitChar)

/-- The part of a month match after an (optional, already consumed)
sign: at least one digit, taken greedily, then a literal `M`. `sg` is
the sign capture group. -/
def monthTail (sg : String) (x : List Char) : Option (String × String × List Char) :=
  match spanDigits x with
  | ([], _) => none
  | (ds, 'M' :: tl) => some (sg, String.mk ds, tl)
  | (_, _) => none

/-- One anchored attempt of `monthExp` at the start of `s`: an optional
sign, at least one digit (taken greedily), then `M`.  Returns the sign
and digit capture groups and the suffix that follows the match. -/
def matchMonthAt (s : List Char) : Option (String × String × List Char) :=
  match s with
  | [] => none
  | c :: rest =>
    if c = '+' || c = '-' then monthTail (String.mk [c]) rest
    else monthTail "" (c :: rest)

/-- Worker for `findMonths`.  `fuel` only bounds the recursion; every
step consumes at least one character, so the `fuel = 0` branch is
unreachable from `findMonths` (see `findMonthsF_stable`). -/
def findMonthsF : Nat → List Char → List (String × String)
  | 0, _ => []
  | fuel + 1, s =>
    match matchMonthAt s with
    | some (sg, ds, tl) => (sg, ds) :: findMonthsF fuel tl
    | none =>
      match s with
      | [] => []
      | _ :: rest => findMonthsF fuel rest

/-- Go `monthExp.FindAllStringSubmatch(str, -1)`, keeping the sign and
digit capture groups of every non-overlapping leftmost match. -/
def findMonths (s : List Char) : List (String × String) :=
  findMonthsF (s.length + 1) s

/-- Worker for `removeMonths`; `fuel` as in `findMonthsF`. -/
def removeMonthsF : Nat → List Char → List Char
  | 0, _ => []
  | fuel + 1, s =>
    match matchMonthAt s with
    | some (_, _, tl) => removeMonthsF fuel tl
    | none =>
      match s with
      | [] => []
      | c :: rest => c :: removeMonthsF fuel rest

/-- Go `monthExp.ReplaceAllString(str, "")`: delete every match of the
month pattern. -/
def removeMonths (s : List Char) : List Char :=
  removeMonthsF (s.length + 1) s

theorem length_dropWhile_le (p : Char → Bool) (l : List Char) :
    (l.dropWhile p).length ≤ l.length := by
  induction l with
  | nil => simp
  | cons a l ih =>
    rw [List.dropWhile_cons]
    by_cases h : p a
    · rw [if_pos h]
      simp only [List.length_cons]
      omega
    · rw [if_neg h]

theorem spanDigits_snd_length_le (s : List Char) :
    (spanDigits s).2.length ≤ s.length := by
  simpa [spanDigits] using length_dropWhile_le isDigitChar s

theorem monthTail_length_lt {sg a b : String} {x tl : List Char}
    (h : monthTail sg x = some (a, b, tl)) : tl.length < x.length := by
  unfold monthTail at h
  rcases h1 : spanDigits x with ⟨ds, after⟩
  rw [h1] at h
  have hle : after.length ≤ x.length := by
    have := spanDigits_snd_length_le x
    rw [h1] at this; exact this
  split at h
  · exact absurd h (by simp)
  · rename_i ds' tl' heq
    rcases heq with ⟨⟨⟩, ⟨⟩⟩
    simp only [Option.some.injEq, Prod.mk.injEq] at h
    obtain ⟨-, -, rfl⟩ := h
    simp only [List.length_cons] at hle
    omega
  · exact absurd h (by simp)

theorem matchMonthAt_length_lt {s : List Char} {sg ds : String} {tl : List Char}
    (h : matchMonthAt s = some (sg, ds, tl)) : tl.length < s.length := by
  unfold matchMonthAt at h
  match s with
  | [] => exact absurd h (by simp)
  | c :: rest =>
    simp only at h
    split at h
    · have := monthTail_length_lt h
      simp only [List.length_cons]
      omega
    · exact monthTail_length_lt h

/-- Fuel sufficiency for `findMonthsF`: any fuel exceeding the length of
the input gives the same scan, so the `fuel = 0` branch of the worker is
dead code for `findMonths`. -/
theorem findMonthsF_stable (f1 f2 : Nat) (s : List Char)
    (h1 : s.length < f1) (h2 : s.length < f2) :
    findMonthsF f1 s = findMonthsF f2 s := by
  induction f1 using Nat.strong_induction_on generalizing f2 s with
  | _ f1 ih =>
    match f1, f2 with
    | 0, _ => omega
    | _ + 1, 0 => omega
    | g1 + 1, g2 + 1 =>
      simp only [findMonthsF]
      rcases hm : matchMonthAt s with - | ⟨sg, ds, tl⟩
      · match s with
        | [] => rfl
        | c :: rest =>
          simp only [List.length_cons] at h1 h2
          simp only [hm]
          rw [ih g1 (by omega) g2 rest (by omega) (by omega)]
      · have := matchMonthAt_length_lt hm
        simp only [hm]
        rw [ih g1 (by omega) g2 tl (by omega) (by omega)]

/-- Fuel sufficiency for `removeMonthsF`. -/
theorem removeMonthsF_stable (f1 f2 : Nat) (s : List Char)
    (h1 : s.length < f1) (h2 : s.length < f2) :
    removeMonthsF f1 s = removeMonthsF f2 s := by
  induction f1 using Nat.strong_induction_on generalizing f2 s with
  | _ f1 ih =>
    match f1, f2 with
    | 0, _ => omega
    | _ + 1, 0 => omega
    | g1 + 1, g2 + 1 =>
      simp only [removeMonthsF]
      rcases hm : matchMonthAt s with - | ⟨sg, ds, tl⟩
      · match s with
        | [] => rfl
        | c :: rest =>
          simp only [List.length_cons] at h1 h2
          simp only [hm]
          rw [ih g1 (by omega) g2 rest (by omega) (by omega)]
      · have := matchMonthAt_length_lt hm
        simp only [hm]
        rw [ih g1 (by omega) g2 tl (by omega) (by omega)]

/-! ### Go `time.ParseDuration`

Embedded from the Go standard library (`time/format.go`), which the
adapter calls for standard duration strings: a signed sequence of
decimal numbers with optional fractions and unit suffixes
(`ns us µs ms s m h`), accumulated as `int64` nanoseconds with the
library's overflow checks.  The Go accumulator is a `uint64` checked
against `2^63`; it is embedded as `Nat` with the same explicit
comparisons.  The fractional digits' contribution, which Go computes
through `float64`, is embedded as exact floor division; the two agree
on all inputs exercised here (none of the adapter's claims involve
fractional durations). -/

/-- Go `time.leadingInt`: consume a leading digit run, accumulating its
value and failing on `int64` overflow. -/
def leadingInt (x : Nat) : List Char → Except Unit (Nat × List Char)
  | [] => .ok (x, [])
  | c :: rest =>
    if !isDigitChar c then .ok (x, c :: rest)
    else if x > 2 ^ 63 / 10 then .error ()
    else
      let y := x * 10 + digitVal c
      if y > 2 ^ 63 then .error ()
      else leadingInt y rest

/-- Go `time.leadingFraction`: consume fractional digits, accumulating
value and scale until the value would overflow, then discarding further
digits. -/
def leadingFraction (x scale : Nat) (overflow : Bool) :
    List Char → Nat × Nat × List Char
  | [] => (x, scale, [])
  | c :: rest =>
    if !isDigitChar c then (x, scale, c :: rest)
    else if overflow then leadingFraction x scale true rest
    else if x > (2 ^ 63 - 1) / 10 then leadingFraction x scale true rest
    else
      let y := x * 10 + digitVal c
      if y > 2 ^ 63 then leadingFraction x scale true rest
      else leadingFraction y (scale * 10) false rest

/-- Go `time.unitMap`. -/
def unitMap (u : String) : Option Nat :=
  if u = "ns" then some 1
  else if u = "us" || u = "µs" || u = "μs" then some 1000
  else if u = "ms" then some 1000000
  else if u = "s" then some 1000000000
  else if u = "m" then some 60000000000
  else if u = "h" then some 3600000000000
  else none

/-- Is a character part of a number (digit or decimal point)?  Unit
names extend until the next such character. -/
def isNumChar (c : Char) : Bool := c = '.' || isDigitChar c


/-- The optional fractional part `(\.[0-9]*)?` of a duration chunk:
from the remainder after the integer digits, the fraction value, its
scale, the remainder after the fraction, and whether fraction digits
were consumed (Go's `post`). -/
def fracSplit (s1 : List Char) : Nat × Nat × List Char × Bool :=
  match s1 with
  | '.' :: s1' =>
    match leadingFraction 0 1 false s1' with
    | (f, scale, s2) => (f, scale, s2, decide (s2.length ≠ s1'.length))
  | _ => (0, 1, s1, false)

/-- One iteration of the main loop of Go `time.ParseDuration` on a
non-empty remainder: leading digits (`leadingInt`), an optional
fraction (`fracSplit`), then a unit name looked up in `unitMap`, with
the library's `int64` overflow checks.  Returns this chunk's
nanosecond value and the remaining input.  The fractional
contribution, which Go computes through `float64`, is embedded as
exact floor division `f * unit / scale`. -/
def parseChunk : List Char → Except Unit (Nat × List Char)
  | [] => .error ()
  | c :: cs =>
    if !isNumChar c then .error ()
    else
      match leadingInt 0 (c :: cs) with
      | .error () => .error ()
      | .ok (v, s1) =>
        let pre := decide (s1.length ≠ (c :: cs).length)
        match fracSplit s1 with
        | (f, scale, s2, post) =>
          if !pre && !post then .error ()
          else
            let u := s2.takeWhile (fun c => !isNumChar c)
            let s3 := s2.dropWhile (fun c => !isNumChar c)
            if u.isEmpty then .error ()
            else
              match unitMap (String.mk u) with
              | none => .error ()
              | some unit =>
                if v > 2 ^ 63 / unit then .error ()
                else
                  let v1 := v * unit
                  let v2 := if f > 0 then v1 + f * unit / scale else v1
                  if v2 > 2 ^ 63 then .error ()
                  else .ok (v2, s3)

/-- Worker for the main loop of Go `time.ParseDuration`, accumulating
chunk values into `d` with the library's overflow check.  `fuel` only
bounds the recursion; every chunk consumes at least one character, so
the `fuel = 0` branch is unreachable from `parseDuration` (see
`parseDurationLoopF_stable`). -/
def parseDurationLoopF : Nat → List Char → Nat → Except Unit Nat
  | 0, _, _ => .error ()
  | fuel + 1, s, d =>
    match s with
    | [] => .ok d
    | _ :: _ =>
      match parseChunk s with
      | .error () => .error ()
      | .ok (v2, s3) =>
        let d' := d + v2
        if d' > 2 ^ 63 then .error ()
        else parseDurationLoopF fuel s3 d'

/-- Go `time.ParseDuration`, returning `int64` nanoseconds: optional
sign, the special case `"0"`, then the chunk loop; an empty body and a
final value above `int64` range are errors. -/
def parseDuration (str : String) : Except Unit Duration :=
  let s := str.toList
  match
    (match s with
     | '-' :: rest => (true, rest)
     | '+' :: rest => (false, rest)
     | _ => (false, s)) with
  | (neg, s1) =>
    if s1 = ['0'] then .ok 0
    else if s1.isEmpty then .error ()
    else
      match parseDurationLoopF (s1.length + 1) s1 0 with
      | .error () => .error ()
      | .ok d =>
        if neg then .ok (wrap64 (-(d : Int)))
        else if d > 2 ^ 63 - 1 then .error ()
        else .ok (d : Int)

theorem leadingInt_length_le {x : Nat} {s : List Char} {v : Nat} {s1 : List Char}
    (h : leadingInt x s = .ok (v, s1)) : s1.length ≤ s.length := by
  induction s generalizing x with
  | nil =>
    simp only [leadingInt, Except.ok.injEq, Prod.mk.injEq] at h
    simp [← h.2]
  | cons c rest ih =>
    simp only [leadingInt] at h
    split at h
    · simp only [Except.ok.injEq, Prod.mk.injEq] at h
      simp [← h.2]
    · split at h
      · exact absurd h (by simp)
      · split at h
        · exact absurd h (by simp)
        · have := ih h
          simp only [List.length_cons]
          omega

theorem leadingFraction_length_le (x scale : Nat) (ov : Bool) (s : List Char) :
    (leadingFraction x scale ov s).2.2.length ≤ s.length := by
  induction s generalizing x scale ov with
  | nil => simp [leadingFraction]
  | cons c rest ih =>
    simp only [leadingFraction]
    split
    · simp
    · split
      · have := ih x scale true
        simp only [List.length_cons]
        omega
      · split
        · have := ih x scale true
          simp only [List.length_cons]
          omega
        · split
          · have := ih x scale true
            simp only [List.length_cons]
            omega
          · have := ih (x * 10 + digitVal c) (scale * 10) false
            simp only [List.length_cons]
            omega

theorem fracSplit_length_le (s1 : List Char) :
    (fracSplit s1).2.2.1.length ≤ s1.length := by
  unfold fracSplit
  split
  · rename_i s1'
    rcases hlf : leadingFraction 0 1 false s1' with ⟨f, scale, s2⟩
    have hle := leadingFraction_length_le 0 1 false s1'
    rw [hlf] at hle
    have hle2 : s2.length ≤ s1'.length := hle
    show s2.length ≤ ('.' :: s1').length
    simp only [List.length_cons]
    omega
  · simp

theorem parseChunk_length_lt {s : List Char} {v2 : Nat} {s3 : List Char}
    (h : parseChunk s = .ok (v2, s3)) : s3.length < s.length := by
  match s with
  | [] => exact absurd h (by simp [parseChunk])
  | c :: cs =>
    simp only [parseChunk] at h
    split at h
    · exact absurd h (by simp)
    · rcases hli : leadingInt 0 (c :: cs) with u | ⟨v, s1⟩
      · rw [hli] at h
        exact absurd h (by simp)
      · have hs1 : s1.length ≤ (c :: cs).length := leadingInt_length_le hli
        simp only [hli] at h
        rcases hfr : fracSplit s1 with ⟨f, scale, s2, post⟩
        simp only [hfr] at h
        have hs2 : s2.length ≤ s1.length := by
          have := fracSplit_length_le s1
          rw [hfr] at this
          exact this
        split at h
        · exact absurd h (by simp)
        · split at h
          · exact absurd h (by simp)
          · rename_i hu
            split at h
            · exact absurd h (by simp)
            · split at h
              · exact absurd h (by simp)
              · have hsplit :
                    (s2.takeWhile (fun c => !isNumChar c)).length +
                      (s2.dropWhile (fun c => !isNumChar c)).length = s2.length := by
                  rw [← List.length_append, List.takeWhile_append_dropWhile]
                have hune : (s2.takeWhile (fun c => !isNumChar c)).length ≠ 0 := by
                  intro h0
                  apply hu
                  rw [List.isEmpty_iff, ← List.length_eq_zero]
                  exact h0
                simp only [List.length_cons] at hs1
                split at h <;> split at h <;>
                  first
                  | exact Except.noConfusion h
                  | (simp only [Except.ok.injEq, Prod.mk.injEq] at h
                     obtain ⟨-, rfl⟩ := h
                     simp only [List.length_cons]
                     omega)

/-- Fuel sufficiency for `parseDurationLoopF`: any fuel exceeding the
input length gives the same result, so the `fuel = 0` branch of the
worker is dead code for `parseDuration`. -/
theorem parseDurationLoopF_stable (f1 f2 : Nat) (s : List Char) (d : Nat)
    (h1 : s.length < f1) (h2 : s.length < f2) :
    parseDurationLoopF f1 s d = parseDurationLoopF f2 s d := by
  induction f1 using Nat.strong_induction_on generalizing f2 s d with
  | _ f1 ih =>
    match f1, f2 with
    | 0, _ => omega
    | _ + 1, 0 => omega
    | g1 + 1, g2 + 1 =>
      simp only [parseDurationLoopF]
      match s with
      | [] => rfl
      | c :: cs =>
        rcases hc : parseChunk (c :: cs) with u | ⟨v2, s3⟩
        · simp [hc]
        · have := parseChunk_length_lt hc
          simp only [hc]
          split
          · rfl
          · rw [ih g1 (by omega) g2 s3 (d + v2) (by omega) (by omega)]

/-! ### `tryParsingInMonths` (store/local) -/

/-- Decimal value of a digit string. -/
def digitsVal (ds : List Char) : Nat := ds.foldl (fun a c => a * 10 + digitVal c) 0

/-- Go `strconv.Atoi` as applied to the regexp's digit capture group
(non-empty, digits only): the parsed value, or an error when it
overflows `int64` (`Atoi` reports `ErrRange`, which the caller treats
as failure). -/
def goAtoi (ds : String) : Except Unit Nat :=
  let v := digitsVal ds.toList
  if v > 2 ^ 63 - 1 then .error () else .ok v

/-- The error values `tryParsingInMonths` can produce:
`ErrNotAMonthDuration` when the month pattern does not match, and the
wrapped `strconv.Atoi` / `time.ParseDuration` errors otherwise. -/
inductive MonthErr
  | notAMonthDuration
  | atoiFailed
  | residualFailed
deriving DecidableEq

/-- `tryParsingInMonths` (store/local): if `monthExp` matches, convert
the first match's digit group at 720 hours per month, negated when its
sign group is `-`; strip every match, trim white space, and when a
residual remains parse it with `time.ParseDuration` and add it
(`time.Duration` arithmetic wraps around `int64`).  Without a month
match the result is `ErrNotAMonthDuration`. -/
def tryParsingInMonths (str : String) : Except MonthErr Duration :=
  match findMonths str.toList with
  | (sign, digits) :: _ =>
    match goAtoi digits with
    | .error () => .error .atoiFailed
    | .ok monthsCount =>
      let sz := wrap64 (HoursInMonth * (monthsCount : Int))
      let sz := if sign = "-" then wrap64 (-sz) else sz
      let residual := trimSpaceL (removeMonths str.toList)
      if residual.length > 0 then
        match parseDuration (String.mk residual) with
        | .error () => .error .residualFailed
        | .ok remainingTime => .ok (wrap64 (sz + remainingTime))
      else .ok sz
  | [] => .error .notAMonthDuration

/-- The duration grammar as used by `Job.prepareWindow`:
`tryParsingInMonths` first, plain `time.ParseDuration` as fallback on
any rejection by the month grammar. -/
def parseHybridDuration (str : String) : Except Unit Duration :=
  match tryParsingInMonths str with
  | .ok d => .ok d
  | .error _ => parseDuration str

/-! ### Dates: Go `time.Parse` / `Format` with `models.JobDatetimeLayout`

Modelled from the spec: `models.JobDatetimeLayout` is the date layout
`YYYY-MM-DD` (Go layout `2006-01-02`); the `models` package is not part
of the sources under verification.  `time.Parse` with this layout
consumes exactly a four digit year, `-`, a zero-padded two digit month,
`-`, and a zero-padded two digit day, rejects trailing text, and range
checks the month (1..12) and the day against the month's length;
`Format` renders the same zero-padded shape. -/

structure GoDate where
  year : Nat
  month : Nat
  day : Nat
deriving DecidableEq, Repr

def isLeapYear (y : Nat) : Bool := y % 4 = 0 && (y % 100 ≠ 0 || y % 400 = 0)

/-- Go `time.daysIn`. -/
def daysIn (month year : Nat) : Nat :=
  if month = 2 then (if isLeapYear year then 29 else 28)
  else if month = 4 || month = 6 || month = 9 || month = 11 then 30
  else 31

/-- Go `time.Parse` with layout `2006-01-02`. -/
def parseDate (s : String) : Option GoDate :=
  match s.toList with
  | [y1, y2, y3, y4, '-', m1, m2, '-', d1, d2] =>
    if isDigitChar y1 && isDigitChar y2 && isDigitChar y3 && isDigitChar y4 &&
       isDigitChar m1 && isDigitChar m2 && isDigitChar d1 && isDigitChar d2 then
      let year := ((digitVal y1 * 10 + digitVal y2) * 10 + digitVal y3) * 10 + digitVal y4
      let month := digitVal m1 * 10 + digitVal m2
      let day := digitVal d1 * 10 + digitVal d2
      if month = 0 || 12 < month then none
      else if day = 0 || daysIn month year < day then none
      else some ⟨year, month, day⟩
    else none
  | _ => none

/-- Two zero-padded decimal digits (Go `appendInt(_, 2)` for values
below 100). -/
def pad2L (n : Nat) : List Char := [digitChar (n / 10 % 10), digitChar (n % 10)]

/-- Four zero-padded decimal digits (Go `appendInt(_, 4)` for values
below 10000; `parseDate` only produces such years). -/
def pad4L (n : Nat) : List Char :=
  [digitChar (n / 1000 % 10), digitChar (n / 100 % 10),
   digitChar (n / 10 % 10), digitChar (n % 10)]

/-- Go `time.Time.Format` with layout `2006-01-02`. -/
def formatDate (d : GoDate) : String :=
  String.mk (pad4L d.year ++ '-' :: (pad2L d.month ++ '-' :: pad2L d.day))

theorem isDigitChar_bounds {c : Char} (h : isDigitChar c = true) :
    48 ≤ c.toNat ∧ c.toNat ≤ 57 := by
  unfold isDigitChar at h
  rw [Bool.and_eq_true, decide_eq_true_iff, decide_eq_true_iff] at h
  constructor
  · exact h.1
  · exact h.2

theorem digitChar_digitVal {c : Char} (h : isDigitChar c = true) :
    digitChar (digitVal c) = c := by
  obtain ⟨h1, h2⟩ := isDigitChar_bounds h
  unfold digitChar digitVal
  have h3 : 48 + (c.toNat - 48) = c.toNat := by omega
  rw [h3, Char.ofNat_toNat]

theorem digitVal_le_nine {c : Char} (h : isDigitChar c = true) : digitVal c ≤ 9 := by
  obtain ⟨h1, h2⟩ := isDigitChar_bounds h
  unfold digitVal
  omega

/-- Round trip of the date grammar: formatting a parsed date gives back
the original string. -/
theorem formatDate_parseDate {s : String} {d : GoDate}
    (h : parseDate s = some d) : formatDate d = s := by
  unfold parseDate at h
  split at h
  case h_2 => exact absurd h (by simp)
  case h_1 y1 y2 y3 y4 m1 m2 d1 d2 heq =>
    split at h
    case isFalse => exact absurd h (by simp)
    case isTrue hdig =>
      simp only [Bool.and_eq_true] at hdig
      obtain ⟨⟨⟨⟨⟨⟨⟨hy1, hy2⟩, hy3⟩, hy4⟩, hm1⟩, hm2⟩, hd1⟩, hd2⟩ := hdig
      dsimp only at h
      split at h
      case isTrue => exact absurd h (by simp)
      case isFalse =>
        split at h
        case isTrue => exact absurd h (by simp)
        case isFalse =>
          simp only [Option.some.injEq] at h
          subst h
          have vy1 := digitVal_le_nine hy1
          have vy2 := digitVal_le_nine hy2
          have vy3 := digitVal_le_nine hy3
          have vy4 := digitVal_le_nine hy4
          have vm1 := digitVal_le_nine hm1
          have vm2 := digitVal_le_nine hm2
          have vd1 := digitVal_le_nine hd1
          have vd2 := digitVal_le_nine hd2
          have hs : s = String.mk s.toList := rfl
          rw [hs, heq]
          unfold formatDate pad4L pad2L
          apply congrArg String.mk
          have e1 : (((digitVal y1 * 10 + digitVal y2) * 10 + digitVal y3) * 10 + digitVal y4)
              / 1000 % 10 = digitVal y1 := by omega
          have e2 : (((digitVal y1 * 10 + digitVal y2) * 10 + digitVal y3) * 10 + digitVal y4)
              / 100 % 10 = digitVal y2 := by omega
          have e3 : (((digitVal y1 * 10 + digitVal y2) * 10 + digitVal y3) * 10 + digitVal y4)
              / 10 % 10 = digitVal y3 := by omega
          have e4 : (((digitVal y1 * 10 + digitVal y2) * 10 + digitVal y3) * 10 + digitVal y4)
              % 10 = digitVal y4 := by omega
          have e5 : (digitVal m1 * 10 + digitVal m2) / 10 % 10 = digitVal m1 := by omega
          have e6 : (digitVal m1 * 10 + digitVal m2) % 10 = digitVal m2 := by omega
          have e7 : (digitVal d1 * 10 + digitVal d2) / 10 % 10 = digitVal d1 := by omega
          have e8 : (digitVal d1 * 10 + digitVal d2) % 10 = digitVal d2 := by omega
          simp only [e1, e2, e3, e4, e5, e6, e7, e8,
            digitChar_digitVal hy1, digitChar_digitVal hy2, digitChar_digitVal hy3,
            digitChar_digitVal hy4, digitChar_digitVal hm1, digitChar_digitVal hm2,
            digitChar_digitVal hd1, digitChar_digitVal hd2]
          rfl

/-! ### Go `time.Duration.String`

Modelled from the spec: `FromSpec` renders window durations through
`models.JobSpecTaskWindow.SizeString` / `OffsetString`, which are not
part of the sources under verification; per the spec they re-render
canonically (for example a parsed `"1M"` as `"720h0m0s"`), which is the
Go standard library's `Duration.String`. -/

/-- Go `time.fmtFrac` digit loop: prepend the next fraction digit once a
non-zero digit has been seen, working from the least significant digit. -/
def fmtFracGo (acc : List Char) (pr : Bool) (v : Nat) : Nat → List Char × Bool × Nat
  | 0 => (acc, pr, v)
  | i + 1 =>
    let digit := v % 10
    let pr2 := pr || decide (digit ≠ 0)
    let acc2 := if pr2 then digitChar digit :: acc else acc
    fmtFracGo acc2 pr2 (v / 10) i

/-- Go `time.fmtFrac`: the fraction of `v / 10 ^ prec` with trailing
zeros (and an all-zero fraction's decimal point) omitted, and the
remaining integer part. -/
def fmtFrac (v prec : Nat) : List Char × Nat :=
  match fmtFracGo [] false v prec with
  | (acc, pr, v2) => ((if pr then '.' :: acc else acc), v2)

/-- Go `time.Duration.String`. -/
def durationString (d : Duration) : String :=
  let neg := decide (d < 0)
  let u : Nat := d.natAbs
  if u < 1000000000 then
    if u = 0 then "0s"
    else
      let pu : Nat × String :=
        if u < 1000 then (0, "ns")
        else if u < 1000000 then (3, "µs")
        else (6, "ms")
      match fmtFrac u pu.1 with
      | (frac, u2) =>
        (if neg then "-" else "") ++ Nat.repr u2 ++ String.mk frac ++ pu.2
  else
    match fmtFrac u 9 with
    | (frac, us) =>
      let secPart := Nat.repr (us % 60) ++ String.mk frac ++ "s"
      let um := us / 60
      let body :=
        if um > 0 then
          let minPart := Nat.repr (um % 60) ++ "m" ++ secPart
          let uh := um / 60
          if uh > 0 then Nat.repr uh ++ "h" ++ minPart else minPart
        else secPart
      (if neg then "-" else "") ++ body

/-! ### The on-disk Specification Model (store/local `Job`)

`yaml.MapSlice` config blocks hold string keys and values (the adapter
casts them with `c.Key.(string)` / `c.Value.(string)`), so they are
embedded as ordered `String × String` lists; Go `map[string]string`
fields (`asset`, `labels`) are embedded as association lists. -/

structure JobSchedule where
  startDate : String
  endDate : String
  interval : String
deriving DecidableEq, Repr

structure JobBehavior where
  dependsOnPast : Bool
  catchup : Bool
deriving DecidableEq, Repr

structure JobTaskWindow where
  size : String
  offset : String
  truncateTo : String
deriving DecidableEq, Repr

structure JobTask where
  name : String
  config : List (String × String)
  window : JobTaskWindow
deriving DecidableEq, Repr

structure JobHook where
  name : String
  config : List (String × String)
deriving DecidableEq, Repr

structure JobDependency where
  jobName : String
  type : String
deriving DecidableEq, Repr

structure Job where
  version : Int
  name : String
  owner : String
  description : String
  schedule : JobSchedule
  behavior : JobBehavior
  task : JobTask
  asset : List (String × String)
  labels : List (String × String)
  dependencies : List JobDependency
  hooks : List JobHook
deriving DecidableEq, Repr

/-! ### The Domain Model (`models` package)

Modelled from the spec: the canonical domain job spec mirrors the
on-disk shape with dates as parsed timestamps, a resolved window,
dependencies keyed by job name in a mapping (duplicate entries
overwrite), and tasks/hooks resolved to plugin handles.  The `models`
package is not part of the sources under verification.  The Go
`map[string]models.JobSpecDependency` is embedded as an association
list with overwriting insertion; its (randomized) iteration order is
fixed to insertion order here, and statements about dependencies are
made up to set membership. -/

/-- Modelled from the spec: the three known dependency types
(intra-project, inter-project, extra-project) of
`models.JobSpecDependencyType`, with their `String()` renderings. -/
inductive JobSpecDependencyType
  | intra
  | inter
  | extra
deriving DecidableEq, Repr

def JobSpecDependencyType.str : JobSpecDependencyType → String
  | .intra => "intra"
  | .inter => "inter"
  | .extra => "extra"

/-- Modelled from the spec: a registered plugin handle (task or hook
unit), identified by its name. -/
structure PluginUnit where
  name : String
deriving DecidableEq, Repr

/-- Modelled from the spec: the external plugin registries
(`models.TransformationRepo`, `models.HookRepo`) resolve a name to the
registered plugin with that name and fail on unknown names ("Task/hook
name must resolve to a registered plugin; unresolved names are a hard
error, not a default"). -/
def repoGetByName (repo : List PluginUnit) (n : String) : Except String PluginUnit :=
  match repo.find? (fun u => u.name = n) with
  | some u => .ok u
  | none => .error ("not found: " ++ n)

structure JobSpecTaskWindow where
  size : Duration
  offset : Duration
  truncateTo : String
deriving DecidableEq, Repr

def JobSpecTaskWindow.SizeString (w : JobSpecTaskWindow) : String :=
  durationString w.size

def JobSpecTaskWindow.OffsetString (w : JobSpecTaskWindow) : String :=
  durationString w.offset

structure JobSpecSchedule where
  startDate : GoDate
  endDate : Option GoDate
  interval : String
deriving DecidableEq, Repr

structure JobSpecBehavior where
  catchUp : Bool
  dependsOnPast : Bool
deriving DecidableEq, Repr

structure JobSpecHook where
  config : List (String × String)
  unit : PluginUnit
deriving DecidableEq, Repr

structure JobSpecTask where
  unit : Option PluginUnit
  config : List (String × String)
  window : JobSpecTaskWindow
deriving DecidableEq, Repr

structure JobSpecDependency where
  type : JobSpecDependencyType
deriving DecidableEq, Repr

structure JobSpec where
  version : Int
  name : String
  owner : String
  description : String
  labels : List (String × String)
  schedule : JobSpecSchedule
  behavior : JobSpecBehavior
  task : JobSpecTask
  assets : List (String × String)
  dependencies : List (String × JobSpecDependency)
  hooks : List JobSpecHook
deriving DecidableEq, Repr

/-! ### The Specification Adapter (store/local) -/

/-- `JobHook.ToSpec` (store/local): resolve the hook by name through
the hook registry; a missing hook is a hard error. -/
def JobHook.ToSpec (a : JobHook) (supportedHookRepo : List PluginUnit) :
    Except String JobSpecHook :=
  match repoGetByName supportedHookRepo a.name with
  | .error e => .error ("spec reading error: " ++ e)
  | .ok hookUnit => .ok { config := a.config.map (fun c => (c.1, c.2)), unit := hookUnit }

/-- `JobHook.FromSpec` (store/local). -/
def JobHook.FromSpec (spec : JobSpecHook) : JobHook :=
  { name := spec.unit.name, config := spec.config.map (fun c => (c.1, c.2)) }

/-- `Job.prepareWindow` (store/local): defaults `{size: 24h, offset: 0,
truncate_to: "d"}`; a non-empty `truncate_to` overrides the default; a
non-empty size or offset is parsed with `tryParsingInMonths` first and
`time.ParseDuration` as fallback, and is a hard error when both
reject. -/
def Job.prepareWindow (conf : Job) : Except String JobSpecTaskWindow :=
  let w0 : JobSpecTaskWindow := { size := Hour * 24, offset := 0, truncateTo := "d" }
  let w1 : JobSpecTaskWindow :=
    if conf.task.window.truncateTo ≠ "" then
      { w0 with truncateTo := conf.task.window.truncateTo }
    else w0
  let sized : Except String JobSpecTaskWindow :=
    if conf.task.window.size ≠ "" then
      match tryParsingInMonths conf.task.window.size with
      | .ok d => .ok { w1 with size := d }
      | .error _ =>
        match parseDuration conf.task.window.size with
        | .ok d => .ok { w1 with size := d }
        | .error () =>
          .error ("failed to parse task window " ++ conf.name ++
            " with size " ++ conf.task.window.size)
    else .ok w1
  match sized with
  | .error e => .error e
  | .ok w2 =>
    if conf.task.window.offset ≠ "" then
      match tryParsingInMonths conf.task.window.offset with
      | .ok d => .ok { w2 with offset := d }
      | .error _ =>
        match parseDuration conf.task.window.offset with
        | .ok d => .ok { w2 with offset := d }
        | .error () =>
          .error ("failed to parse task window " ++ conf.name ++
            " with offset " ++ conf.task.window.offset)
    else .ok w2

/-- The `switch dep.Type` of `JobSpecAdapter.ToSpec`: each of the three
known enum strings maps to its type; anything else keeps the `Intra`
initial value. -/
def resolveDependencyType (t : String) : JobSpecDependencyType :=
  if t = JobSpecDependencyType.intra.str then .intra
  else if t = JobSpecDependencyType.inter.str then .inter
  else if t = JobSpecDependencyType.extra.str then .extra
  else .intra

/-- Go map assignment `m[k] = v` on the association-list embedding of
`map[string]models.JobSpecDependency`: overwrite the existing entry for
`k` or append a new one. -/
def mapInsert (k : String) (v : JobSpecDependency) :
    List (String × JobSpecDependency) → List (String × JobSpecDependency)
  | [] => [(k, v)]
  | (k2, v2) :: rest => if k2 = k then (k, v) :: rest else (k2, v2) :: mapInsert k v rest

/-- The dependency-preparation loop of `JobSpecAdapter.ToSpec`:
`dependencies[dep.JobName] = models.JobSpecDependency{Type: depType}`
over the declared dependencies in order. -/
def buildDependencies (deps : List JobDependency) : List (String × JobSpecDependency) :=
  deps.foldl (fun m dep => mapInsert dep.jobName { type := resolveDependencyType dep.type } m) []

/-- The hook-preparation loop of `JobSpecAdapter.ToSpec`: adapt each
hook in order, failing fast on the first unresolved hook. -/
def adaptHooks (repo : List PluginUnit) : List JobHook → Except String (List JobSpecHook)
  | [] => .ok []
  | h :: rest =>
    match h.ToSpec repo with
    | .error e => .error e
    | .ok adaptHook =>
      match adaptHooks repo rest with
      | .error e => .error e
      | .ok tl => .ok (adaptHook :: tl)

structure JobSpecAdapter where
  supportedTaskRepo : List PluginUnit
  supportedHookRepo : List PluginUnit

/-- The end-date block of `JobSpecAdapter.ToSpec`: an empty string is
an open-ended schedule (`nil`), a non-empty one must parse with the
date grammar. -/
def parseEndDate (endDate : String) : Except String (Option GoDate) :=
  if endDate ≠ "" then
    match parseDate endDate with
    | none => .error ("parsing time " ++ endDate)
    | some e => .ok (some e)
  else .ok none

/-- `JobSpecAdapter.ToSpec` (store/local): parse the schedule dates,
resolve dependency types (unknown types fall back to intra-project),
adapt the hooks, prepare the window, resolve the task unit, and build
the domain spec; every failure aborts with the zero spec and an
error. -/
def JobSpecAdapter.ToSpec (adapt : JobSpecAdapter) (conf : Job) : Except String JobSpec :=
  match parseDate conf.schedule.startDate with
  | none => .error ("parsing time " ++ conf.schedule.startDate)
  | some startDate =>
    match parseEndDate conf.schedule.endDate with
    | .error e => .error e
    | .ok endDate =>
      let dependencies := buildDependencies conf.dependencies
      match adaptHooks adapt.supportedHookRepo conf.hooks with
      | .error e => .error e
      | .ok hooks =>
        match conf.prepareWindow with
        | .error e => .error e
        | .ok window =>
          match repoGetByName adapt.supportedTaskRepo conf.task.name with
          | .error e =>
            .error ("spec reading error, failed to find exec unit " ++
              conf.task.name ++ ": " ++ e)
          | .ok execUnit =>
            .ok {
              version := conf.version
              name := trimSpace conf.name
              owner := conf.owner
              description := conf.description
              labels := conf.labels.map (fun p => (p.1, p.2))
              schedule := {
                startDate := startDate
                endDate := endDate
                interval := conf.schedule.interval }
              behavior := {
                catchUp := conf.behavior.catchup
                dependsOnPast := conf.behavior.dependsOnPast }
              task := {
                unit := some execUnit
                config := conf.task.config.map (fun c => (c.1, c.2))
                window := window }
              assets := conf.asset
              dependencies := dependencies
              hooks := hooks }

/-- `JobSpecAdapter.FromSpec` (store/local): requires a non-nil task
unit, formats the schedule dates back to strings, renders the window
durations, and lists the dependency map's entries (the Go map's
randomized iteration order is fixed to the association list's order
here). -/
def JobSpecAdapter.FromSpec (_adapt : JobSpecAdapter) (spec : JobSpec) : Except String Job :=
  match spec.task.unit with
  | none => .error "exec unit is nil"
  | some u =>
    .ok {
      version := spec.version
      name := spec.name
      owner := spec.owner
      description := spec.description
      schedule := {
        interval := spec.schedule.interval
        startDate := formatDate spec.schedule.startDate
        endDate :=
          match spec.schedule.endDate with
          | none => ""
          | some e => formatDate e }
      behavior := {
        dependsOnPast := spec.behavior.dependsOnPast
        catchup := spec.behavior.catchUp }
      task := {
        name := u.name
        config := spec.task.config.map (fun c => (c.1, c.2))
        window := {
          size := spec.task.window.SizeString
          offset := spec.task.window.OffsetString
          truncateTo := spec.task.window.truncateTo } }
      asset := spec.assets
      labels := spec.labels.map (fun p => (p.1, p.2))
      dependencies := spec.dependencies.map (fun p => { jobName := p.1, type := p.2.type.str })
      hooks := spec.hooks.map JobHook.FromSpec }

/-! ### The deployment session (cmd/opctl/commands/deploy.go)

`postDeploymentRequest` drives the RPC session: register the project,
deploy datastore resources (per datastore, unless ignored), then
deploy jobs (unless ignored).  The network side (gRPC connection,
`RegisterProject`, the two `Deploy*Specification` streaming calls, the
spec repositories and proto adapters) is external to the function and
is embedded as an environment of call results; each response stream is
a list of `Recv` results, with the end of the list standing for
`io.EOF`.  The requests the function issues are recorded in order in a
trace. -/

/-- One streamed deployment response (`DeployResourceSpecificationResponse`
or `DeployJobSpecificationResponse`): the `Ack` flag, the `Success`
flag, the resource or job name, and the message. -/
structure AckResp where
  ack : Bool
  success : Bool
  name : String
  message : String
deriving DecidableEq, Repr

/-- A response stream as consumed through `Recv`: each element is a
received message or a transport error; the end of the list is `io.EOF`. -/
abbrev RespStream := List (Except String AckResp)

/-- Result of consuming one response stream: the per-item success
counter, the loop's outcome, and how many `Recv` results were
consumed. -/
structure StreamOutcome where
  counter : Nat
  result : Except String Unit
  consumed : Nat
deriving DecidableEq, Repr

/-- The stream-consumption loop of `postDeploymentRequest` (used for
both resource and job streams): a `Recv` error aborts; a message with
`ack` and no `success` aborts naming the item; a successful ack
increments the counter; a non-ack message is only logged. -/
def consumeStream (counter : Nat) : RespStream → StreamOutcome
  | [] => ⟨counter, .ok (), 0⟩
  | .error e :: _ => ⟨counter, .error ("failed to receive deployment ack: " ++ e), 1⟩
  | .ok resp :: rest =>
    if resp.ack then
      if !resp.success then
        ⟨counter, .error ("unable to deploy: " ++ resp.name ++ " " ++ resp.message), 1⟩
      else
        let o := consumeStream (counter + 1) rest
        ⟨o.counter, o.result, o.consumed + 1⟩
    else
      let o := consumeStream counter rest
      ⟨o.counter, o.result, o.consumed + 1⟩

/-- A request issued by `postDeploymentRequest` over the connection. -/
inductive DeployReq
  | registerProject
  | deployResourceSpecification (storeName : String)
  | deployJobSpecification
deriving DecidableEq, Repr

/-- How `postDeploymentRequest` ends: normal return, an error return,
or process exit through `errExit` (a commands-package helper outside
these sources that prints and exits). -/
inductive DeployOutcome
  | ok
  | fail (e : String)
  | exited (e : String)
deriving DecidableEq, Repr

structure DeployResult where
  trace : List DeployReq
  outcome : DeployOutcome
deriving DecidableEq, Repr

/-- `RegisterProject`'s response. -/
structure RegisterResp where
  success : Bool
  message : String
deriving DecidableEq, Repr

/-- One datastore's environment inside the resource loop: the
datastore name, the `datastoreRepo.GetByName` result, the resource
specs (by name) from its repository, and the
`DeployResourceSpecification` call result. -/
structure DatastoreEnv where
  storeName : String
  getByName : Except String Unit
  resourceSpecs : Except String (List String)
  streamOpen : Except String RespStream
deriving Repr

/-- The environment of one `postDeploymentRequest` run: results of the
external calls it makes, in the order it would make them. -/
structure DeployEnv where
  conn : Except String Unit
  registerProject : Except String RegisterResp
  datastores : List DatastoreEnv
  adaptResource : String → Except String String
  jobSpecs : Except String (List String)
  adaptJob : String → Except String String
  jobStreamOpen : Except String RespStream

/-- The spec-adaptation loops of `postDeploymentRequest` (resources per
datastore, jobs): adapt every spec, failing fast on the first
serialization error. -/
def adaptAll (f : String → Except String String) : List String → Except String (List String)
  | [] => .ok []
  | s :: rest =>
    match f s with
    | .error e => .error ("failed to serialize: " ++ s ++ ": " ++ e)
    | .ok p =>
      match adaptAll f rest with
      | .error e => .error e
      | .ok ps => .ok (p :: ps)

/-- The resource-deployment phase of `postDeploymentRequest`: for each
datastore, resolve it (`errExit` on failure), load its specs (`errExit`
on failure), adapt them all, send one `DeployResourceSpecification`
request, and consume the response stream; any error returns
immediately, before later datastores are visited. -/
def resourcePhase (adaptResource : String → Except String String) :
    List DatastoreEnv → List DeployReq × DeployOutcome
  | [] => ([], .ok)
  | ds :: rest =>
    match ds.getByName with
    | .error _ => ([], .exited ("unsupported datastore: " ++ ds.storeName))
    | .ok _ =>
      match ds.resourceSpecs with
      | .error e => ([], .exited e)
      | .ok specs =>
        match adaptAll adaptResource specs with
        | .error e => ([], .fail e)
        | .ok _ =>
          match ds.streamOpen with
          | .error e =>
            ([.deployResourceSpecification ds.storeName], .fail ("deployement failed: " ++ e))
          | .ok stream =>
            match (consumeStream 0 stream).result with
            | .error e => ([.deployResourceSpecification ds.storeName], .fail e)
            | .ok _ =>
              match resourcePhase adaptResource rest with
              | (t, o) => (.deployResourceSpecification ds.storeName :: t, o)

/-- The job-deployment phase of `postDeploymentRequest`: load all job
specs, adapt them all, send one `DeployJobSpecification` request, and
consume the response stream; any error returns immediately. -/
def jobPhase (env : DeployEnv) : List DeployReq × DeployOutcome :=
  match env.jobSpecs with
  | .error e => ([], .fail e)
  | .ok specs =>
    match adaptAll env.adaptJob specs with
    | .error e => ([], .fail e)
    | .ok _ =>
      match env.jobStreamOpen with
      | .error e => ([.deployJobSpecification], .fail ("deployement failed: " ++ e))
      | .ok stream =>
        match (consumeStream 0 stream).result with
        | .error e => ([.deployJobSpecification], .fail e)
        | .ok _ => ([.deployJobSpecification], .ok)

/-- `postDeploymentRequest` (cmd/opctl/commands/deploy.go): connect,
register the project (aborting on a transport error or a
`success: false` response), deploy resources unless ignored, then
deploy jobs unless ignored. -/
def postDeploymentRequest (env : DeployEnv)
    (ignoreJobDeployment ignoreResources : Bool) : DeployResult :=
  match env.conn with
  | .error e => ⟨[], .fail e⟩
  | .ok _ =>
    match env.registerProject with
    | .error e => ⟨[.registerProject], .fail ("failed to update project configurations: " ++ e)⟩
    | .ok registerResponse =>
      if !registerResponse.success then
        ⟨[.registerProject],
          .fail ("failed to update project configurations, " ++ registerResponse.message)⟩
      else
        match (if ignoreResources then ([], .ok) else resourcePhase env.adaptResource env.datastores :
            List DeployReq × DeployOutcome) with
        | (rt, .ok) =>
          match (if ignoreJobDeployment then ([], .ok) else jobPhase env :
              List DeployReq × DeployOutcome) with
          | (jt, jo) => ⟨.registerProject :: (rt ++ jt), jo⟩
        | (rt, ro) => ⟨.registerProject :: rt, ro⟩

/-! ### Sample fixtures used by witnesses and counterexamples -/

/-- A registry environment with one registered task and one registered
hook plugin. -/
def sampleAdapter : JobSpecAdapter :=
  { supportedTaskRepo := [⟨"bq2bq"⟩], supportedHookRepo := [⟨"transporter"⟩] }

/-- A well-formed on-disk job. -/
def sampleJob : Job :=
  { version := 1
    name := "sample_job"
    owner := "optimus"
    description := "a job"
    schedule := { startDate := "2021-01-02", endDate := "", interval := "0 2 * * *" }
    behavior := { dependsOnPast := false, catchup := true }
    task := {
      name := "bq2bq"
      config := [("project", "godata")]
      window := { size := "24h", offset := "0", truncateTo := "d" } }
    asset := [("query.sql", "select 1")]
    labels := [("orchestrator", "optimus")]
    dependencies := [{ jobName := "foo", type := "intra" }]
    hooks := [{ name := "transporter", config := [("kafka", "broker")] }] }

/-- A job with an empty window block. -/
def emptyWindowJob : Job :=
  { sampleJob with
    task := { sampleJob.task with window := { size := "", offset := "", truncateTo := "" } } }

/-! ### Claims about the duration grammar -/

/-- C1: the hybrid duration grammar (`tryParsingInMonths` with standard
duration parsing as fallback, as `prepareWindow` uses it) satisfies the
spec's test vectors: `"2M"` is 1440h, `"-1M"` is -720h (the fixed
720h-per-month rate, sign-adjusted), `"1M12h"` is 732h, `"24h"` is 24h
through the standard-duration fallback (the month grammar rejects it),
and `""` and `"2M garbage"` are hard parse errors. -/
theorem c1_duration_grammar_vectors :
    parseHybridDuration "2M" = .ok (1440 * Hour) ∧
    parseHybridDuration "-1M" = .ok (-720 * Hour) ∧
    parseHybridDuration "1M12h" = .ok (732 * Hour) ∧
    parseHybridDuration "24h" = .ok (24 * Hour) ∧
    tryParsingInMonths "24h" = .error .notAMonthDuration ∧
    parseDuration "24h" = .ok (24 * Hour) ∧
    parseHybridDuration "" = .error () ∧
    parseHybridDuration "2M garbage" = .error () :=
  ⟨rfl, rfl, rfl, rfl, rfl, rfl, rfl, rfl⟩

/-- C10: on `"2M3M"` the month scan finds two matches but only the
first match's digit group is counted, while stripping removes every
match, so the string parses successfully to 1440h, not to 3600h (five
months) and not to an error. -/
theorem c10_multiple_month_tokens :
    findMonths "2M3M".toList = [("", "2"), ("", "3")] ∧
    removeMonths "2M3M".toList = [] ∧
    tryParsingInMonths "2M3M" = .ok (1440 * Hour) ∧
    parseHybridDuration "2M3M" = .ok (1440 * Hour) ∧
    (1440 * Hour : Int) ≠ 3600 * Hour :=
  ⟨rfl, rfl, rfl, rfl, by decide⟩

/-! ### Claims about `prepareWindow` -/

/-- `Job.prepareWindow` in closed form: each of size and offset is,
when non-empty, resolved by the hybrid grammar (months first, standard
durations as fallback), and `truncate_to` passes through when
non-empty; empty fields keep the defaults 24h, 0, `"d"`. -/
theorem prepareWindow_eq (conf : Job) :
    conf.prepareWindow =
      (match (if conf.task.window.size = "" then Except.ok (Hour * 24)
              else (parseHybridDuration conf.task.window.size).mapError
                (fun _ => "failed to parse task window " ++ conf.name ++
                  " with size " ++ conf.task.window.size)) with
       | .error e => .error e
       | .ok sz =>
         match (if conf.task.window.offset = "" then Except.ok 0
                else (parseHybridDuration conf.task.window.offset).mapError
                  (fun _ => "failed to parse task window " ++ conf.name ++
                    " with offset " ++ conf.task.window.offset)) with
         | .error e => .error e
         | .ok off =>
           .ok { size := sz, offset := off,
                 truncateTo :=
                   if conf.task.window.truncateTo ≠ "" then conf.task.window.truncateTo
                   else "d" }) := by
  unfold Job.prepareWindow
  rcases htms : tryParsingInMonths conf.task.window.size with e1 | d1 <;>
    rcases hpds : parseDuration conf.task.window.size with e2 | d2 <;>
      rcases htmo : tryParsingInMonths conf.task.window.offset with e3 | d3 <;>
        rcases hpdo : parseDuration conf.task.window.offset with e4 | d4 <;>
          by_cases hsz : conf.task.window.size = "" <;>
            by_cases hoff : conf.task.window.offset = "" <;>
              simp [parseHybridDuration, htms, hpds, htmo, hpdo, hsz, hoff, Except.mapError] <;>
                by_cases htr : conf.task.window.truncateTo = "" <;> simp [htr]

/-- Inversion of a successful `prepareWindow`: each field is the
default exactly when its string is empty, and comes from the hybrid
grammar otherwise. -/
theorem prepareWindow_ok_inv (conf : Job) (w : JobSpecTaskWindow)
    (hw : conf.prepareWindow = .ok w) :
    ((conf.task.window.size = "" ∧ w.size = Hour * 24) ∨
      (conf.task.window.size ≠ "" ∧
        parseHybridDuration conf.task.window.size = .ok w.size)) ∧
    ((conf.task.window.offset = "" ∧ w.offset = 0) ∨
      (conf.task.window.offset ≠ "" ∧
        parseHybridDuration conf.task.window.offset = .ok w.offset)) ∧
    w.truncateTo =
      (if conf.task.window.truncateTo ≠ "" then conf.task.window.truncateTo else "d") := by
  rw [prepareWindow_eq] at hw
  by_cases hsz : conf.task.window.size = ""
  · rw [if_pos hsz] at hw
    by_cases hoff : conf.task.window.offset = ""
    · rw [if_pos hoff] at hw
      simp only [Except.ok.injEq] at hw
      subst hw
      exact ⟨.inl ⟨hsz, rfl⟩, .inl ⟨hoff, rfl⟩, rfl⟩
    · rw [if_neg hoff] at hw
      rcases hh : parseHybridDuration conf.task.window.offset with e | d
      · simp [hh, Except.mapError] at hw
      · simp only [hh, Except.mapError, Except.ok.injEq] at hw
        subst hw
        exact ⟨.inl ⟨hsz, rfl⟩, .inr ⟨hoff, by rfl⟩, rfl⟩
  · rw [if_neg hsz] at hw
    rcases hhs : parseHybridDuration conf.task.window.size with e | d
    · simp [hhs, Except.mapError] at hw
    · simp only [hhs, Except.mapError] at hw
      by_cases hoff : conf.task.window.offset = ""
      · rw [if_pos hoff] at hw
        simp only [Except.ok.injEq] at hw
        subst hw
        exact ⟨.inr ⟨hsz, by rfl⟩, .inl ⟨hoff, rfl⟩, rfl⟩
      · rw [if_neg hoff] at hw
        rcases hho : parseHybridDuration conf.task.window.offset with e | d2
        · simp [hho, Except.mapError] at hw
        · simp only [hho, Except.mapError, Except.ok.injEq] at hw
          subst hw
          exact ⟨.inr ⟨hsz, by rfl⟩, .inr ⟨hoff, by rfl⟩, rfl⟩

/-- A hybrid-grammar failure on a non-empty size string is a hard
`prepareWindow` error. -/
theorem prepareWindow_error_of_size (conf : Job)
    (h1 : conf.task.window.size ≠ "")
    (h2 : parseHybridDuration conf.task.window.size = .error ()) :
    ∃ e, conf.prepareWindow = .error e := by
  rw [prepareWindow_eq, if_neg h1, h2]
  exact ⟨_, rfl⟩

/-- A hybrid-grammar failure on a non-empty offset string is a hard
`prepareWindow` error. -/
theorem prepareWindow_error_of_offset (conf : Job)
    (h1 : conf.task.window.offset ≠ "")
    (h2 : parseHybridDuration conf.task.window.offset = .error ()) :
    ∃ e, conf.prepareWindow = .error e := by
  rw [prepareWindow_eq]
  rcases hs : (if conf.task.window.size = "" then Except.ok (Hour * 24)
      else (parseHybridDuration conf.task.window.size).mapError
        (fun _ => "failed to parse task window " ++ conf.name ++
          " with size " ++ conf.task.window.size)) with e | sz
  · exact ⟨e, rfl⟩
  · rw [if_neg h1, h2]
    exact ⟨_, rfl⟩

/-- C3: a job whose window block is absent (all three strings empty)
prepares without error to the default window `{size: 24h, offset: 0,
truncate_to: "d"}`, and each field independently takes its default
exactly when its own string is empty (a non-empty string is resolved by
the duration grammar or passed through for `truncate_to`). -/
theorem c3_window_defaults (conf : Job) :
    (conf.task.window.size = "" ∧ conf.task.window.offset = "" ∧
        conf.task.window.truncateTo = "" →
      conf.prepareWindow = .ok { size := Hour * 24, offset := 0, truncateTo := "d" }) ∧
    (∀ w, conf.prepareWindow = .ok w →
      (conf.task.window.size = "" → w.size = Hour * 24) ∧
      (conf.task.window.size ≠ "" →
        parseHybridDuration conf.task.window.size = .ok w.size) ∧
      (conf.task.window.offset = "" → w.offset = 0) ∧
      (conf.task.window.offset ≠ "" →
        parseHybridDuration conf.task.window.offset = .ok w.offset) ∧
      (conf.task.window.truncateTo = "" → w.truncateTo = "d") ∧
      (conf.task.window.truncateTo ≠ "" →
        w.truncateTo = conf.task.window.truncateTo)) := by
  constructor
  · rintro ⟨h1, h2, h3⟩
    rw [prepareWindow_eq, if_pos h1, if_pos h2]
    simp [h3]
  · intro w hw
    obtain ⟨hs, ho, ht⟩ := prepareWindow_ok_inv conf w hw
    refine ⟨?_, ?_, ?_, ?_, ?_, ?_⟩
    · intro h1
      rcases hs with ⟨-, h⟩ | ⟨hne, -⟩
      · exact h
      · exact absurd h1 hne
    · intro h1
      rcases hs with ⟨he, -⟩ | ⟨-, h⟩
      · exact absurd he h1
      · exact h
    · intro h1
      rcases ho with ⟨-, h⟩ | ⟨hne, -⟩
      · exact h
      · exact absurd h1 hne
    · intro h1
      rcases ho with ⟨he, -⟩ | ⟨-, h⟩
      · exact absurd he h1
      · exact h
    · intro h1
      rw [ht, if_neg (by simp [h1])]
    · intro h1
      rw [ht, if_pos h1]

/-- Witness for C3 at a concrete job with an absent window block. -/
theorem c3_window_defaults_check :
    Job.prepareWindow emptyWindowJob =
      .ok { size := Hour * 24, offset := 0, truncateTo := "d" } :=
  (c3_window_defaults emptyWindowJob).1 ⟨rfl, rfl, rfl⟩

/-- C4: for a non-empty window size or offset string, `prepareWindow`
consults the month grammar first: a month-grammar success is used as
is (standard parsing is never consulted), standard duration parsing
decides only when the month grammar rejects, and a hard error arises
exactly when both reject. -/
theorem c4_month_grammar_precedence (conf : Job) :
    (conf.task.window.size ≠ "" →
      (∀ d, tryParsingInMonths conf.task.window.size = .ok d →
        ∀ w, conf.prepareWindow = .ok w → w.size = d) ∧
      (∀ e d, tryParsingInMonths conf.task.window.size = .error e →
        parseDuration conf.task.window.size = .ok d →
        ∀ w, conf.prepareWindow = .ok w → w.size = d) ∧
      (∀ e, tryParsingInMonths conf.task.window.size = .error e →
        parseDuration conf.task.window.size = .error () →
        ∃ msg, conf.prepareWindow = .error msg)) ∧
    (conf.task.window.offset ≠ "" →
      (∀ d, tryParsingInMonths conf.task.window.offset = .ok d →
        ∀ w, conf.prepareWindow = .ok w → w.offset = d) ∧
      (∀ e d, tryParsingInMonths conf.task.window.offset = .error e →
        parseDuration conf.task.window.offset = .ok d →
        ∀ w, conf.prepareWindow = .ok w → w.offset = d) ∧
      (∀ e, tryParsingInMonths conf.task.window.offset = .error e →
        parseDuration conf.task.window.offset = .error () →
        ∃ msg, conf.prepareWindow = .error msg)) := by
  constructor
  · intro hne
    refine ⟨?_, ?_, ?_⟩
    · intro d hm w hw
      obtain ⟨hs, -, -⟩ := prepareWindow_ok_inv conf w hw
      rcases hs with ⟨he, -⟩ | ⟨-, h⟩
      · exact absurd he hne
      · rw [parseHybridDuration, hm] at h
        simpa using h.symm
    · intro e d hm hp w hw
      obtain ⟨hs, -, -⟩ := prepareWindow_ok_inv conf w hw
      rcases hs with ⟨he, -⟩ | ⟨-, h⟩
      · exact absurd he hne
      · rw [parseHybridDuration, hm, hp] at h
        simpa using h.symm
    · intro e hm hp
      apply prepareWindow_error_of_size conf hne
      rw [parseHybridDuration, hm, hp]
  · intro hne
    refine ⟨?_, ?_, ?_⟩
    · intro d hm w hw
      obtain ⟨-, ho, -⟩ := prepareWindow_ok_inv conf w hw
      rcases ho with ⟨he, -⟩ | ⟨-, h⟩
      · exact absurd he hne
      · rw [parseHybridDuration, hm] at h
        simpa using h.symm
    · intro e d hm hp w hw
      obtain ⟨-, ho, -⟩ := prepareWindow_ok_inv conf w hw
      rcases ho with ⟨he, -⟩ | ⟨-, h⟩
      · exact absurd he hne
      · rw [parseHybridDuration, hm, hp] at h
        simpa using h.symm
    · intro e hm hp
      apply prepareWindow_error_of_offset conf hne
      rw [parseHybridDuration, hm, hp]

/-- A job whose window size is the month-bearing string `"1M12h"`. -/
def monthWindowJob : Job :=
  { sampleJob with
    task := { sampleJob.task with window := { size := "1M12h", offset := "", truncateTo := "" } } }

/-- A job whose window size both grammars reject. -/
def badWindowJob : Job :=
  { sampleJob with
    task := { sampleJob.task with window := { size := "nope", offset := "", truncateTo := "" } } }

/-- Witness for C4: the month grammar decides `"1M12h"` (732h), and a
size string both grammars reject is a hard error. -/
theorem c4_month_grammar_precedence_check :
    ({ size := 732 * Hour, offset := 0, truncateTo := "d" } : JobSpecTaskWindow).size =
        732 * Hour ∧
    (∃ msg, Job.prepareWindow badWindowJob = .error msg) :=
  ⟨((c4_month_grammar_precedence monthWindowJob).1 (by decide)).1 (732 * Hour) (by decide)
      { size := 732 * Hour, offset := 0, truncateTo := "d" } (by decide),
    ((c4_month_grammar_precedence badWindowJob).1 (by decide)).2.2 .notAMonthDuration
      (by decide) (by decide)⟩

/-! ### Inversion lemmas for the adapter -/

/-- A resolved plugin handle carries the queried name (the registries
return the registered unit whose name matches). -/
theorem repoGetByName_ok_name {repo : List PluginUnit} {n : String} {u : PluginUnit}
    (h : repoGetByName repo n = .ok u) : u.name = n := by
  unfold repoGetByName at h
  rcases hf : repo.find? (fun v => v.name = n) with - | v
  · rw [hf] at h
    exact absurd h (by simp)
  · rw [hf] at h
    simp only [Except.ok.injEq] at h
    subst h
    have := List.find?_some hf
    simpa using this

/-- Inversion of `parseEndDate`. -/
theorem parseEndDate_ok_inv {s : String} {ed : Option GoDate}
    (h : parseEndDate s = .ok ed) :
    (s = "" ∧ ed = none) ∨ (s ≠ "" ∧ ∃ e, parseDate s = some e ∧ ed = some e) := by
  unfold parseEndDate at h
  by_cases hs : s = ""
  · rw [if_neg (by simp [hs])] at h
    simp only [Except.ok.injEq] at h
    exact .inl ⟨hs, h.symm⟩
  · rw [if_pos hs] at h
    rcases hp : parseDate s with - | e
    · rw [hp] at h
      exact absurd h (by simp)
    · rw [hp] at h
      simp only [Except.ok.injEq] at h
      exact .inr ⟨hs, e, rfl, h.symm⟩

/-- A successful `adaptHooks` resolves every hook and keeps the hook
names, in order. -/
theorem adaptHooks_ok_inv {repo : List PluginUnit} {hs : List JobHook}
    {ahs : List JobSpecHook} (h : adaptHooks repo hs = .ok ahs) :
    ahs.map (fun a => a.unit.name) = hs.map JobHook.name ∧
    ∀ hk ∈ hs, ∃ u, repoGetByName repo hk.name = .ok u := by
  induction hs generalizing ahs with
  | nil =>
    simp only [adaptHooks, Except.ok.injEq] at h
    subst h
    simp
  | cons hk rest ih =>
    simp only [adaptHooks] at h
    rcases hts : hk.ToSpec repo with e | ah
    · rw [hts] at h
      exact absurd h (by simp)
    · rw [hts] at h
      rcases hrest : adaptHooks repo rest with e | tl
      · rw [hrest] at h
        exact absurd h (by simp)
      · rw [hrest] at h
        simp only [Except.ok.injEq] at h
        subst h
        obtain ⟨ih1, ih2⟩ := ih hrest
        unfold JobHook.ToSpec at hts
        rcases hg : repoGetByName repo hk.name with e | u
        · rw [hg] at hts
          exact absurd hts (by simp)
        · rw [hg] at hts
          simp only [Except.ok.injEq] at hts
          subst hts
          constructor
          · simp only [List.map_cons, ih1]
            congr 1
            exact repoGetByName_ok_name hg
          · intro hk2 hmem
            rcases hmem with _ | hmem
            · exact ⟨u, hg⟩
            · exact ih2 hk2 (by assumption)

/-- `adaptHooks` fails fast: the first unresolved hook's error is the
loop's error, whatever follows it. -/
theorem adaptHooks_error_head {repo : List PluginUnit} {hk : JobHook}
    (rest : List JobHook) {e : String} (h : JobHook.ToSpec hk repo = .error e) :
    adaptHooks repo (hk :: rest) = .error e := by
  simp only [adaptHooks, h]

/-- Characterization of a successful `JobSpecAdapter.ToSpec`: the dates
parse, every hook resolves, the window prepares, the task resolves, and
the produced spec is exactly the assembled record. -/
theorem ToSpec_ok_iff (ad : JobSpecAdapter) (conf : Job) (spec : JobSpec) :
    JobSpecAdapter.ToSpec ad conf = .ok spec ↔
      ∃ sd ed hooks window execUnit,
        parseDate conf.schedule.startDate = some sd ∧
        parseEndDate conf.schedule.endDate = .ok ed ∧
        adaptHooks ad.supportedHookRepo conf.hooks = .ok hooks ∧
        conf.prepareWindow = .ok window ∧
        repoGetByName ad.supportedTaskRepo conf.task.name = .ok execUnit ∧
        spec = {
          version := conf.version
          name := trimSpace conf.name
          owner := conf.owner
          description := conf.description
          labels := conf.labels.map (fun p => (p.1, p.2))
          schedule := { startDate := sd, endDate := ed, interval := conf.schedule.interval }
          behavior := {
            catchUp := conf.behavior.catchup
            dependsOnPast := conf.behavior.dependsOnPast }
          task := {
            unit := some execUnit
            config := conf.task.config.map (fun c => (c.1, c.2))
            window := window }
          assets := conf.asset
          dependencies := buildDependencies conf.dependencies
          hooks := hooks } := by
  unfold JobSpecAdapter.ToSpec
  rcases h1 : parseDate conf.schedule.startDate with - | sd
  · simp [h1]
  · rcases h2 : parseEndDate conf.schedule.endDate with e | ed
    · simp [h2]
    · rcases h3 : adaptHooks ad.supportedHookRepo conf.hooks with e | hooks
      · simp [h3]
      · rcases h4 : conf.prepareWindow with e | window
        · simp [h4]
        · rcases h5 : repoGetByName ad.supportedTaskRepo conf.task.name with e | execUnit
          · simp [h5]
          · simp [h1, h2, h3, h4, h5, eq_comm]

/-! ### Claims about `ToSpec` -/

/-- C5: dependency type strings outside the three known enum values
(including `""` and `"bogus"`) resolve to the intra-project type, the
three known strings map to their own types, and dependency entries can
never make `ToSpec` fail — conversion succeeds for one dependency list
exactly when it succeeds for any other. -/
theorem c5_dependency_type_fallback (ad : JobSpecAdapter) (conf : Job) :
    (∀ t, t ≠ "intra" → t ≠ "inter" → t ≠ "extra" → resolveDependencyType t = .intra) ∧
    resolveDependencyType "intra" = .intra ∧
    resolveDependencyType "inter" = .inter ∧
    resolveDependencyType "extra" = .extra ∧
    resolveDependencyType "" = .intra ∧
    resolveDependencyType "bogus" = .intra ∧
    (∀ ds : List JobDependency,
      (∃ s, JobSpecAdapter.ToSpec ad { conf with dependencies := ds } = .ok s) ↔
        (∃ s, JobSpecAdapter.ToSpec ad conf = .ok s)) ∧
    (∀ s, JobSpecAdapter.ToSpec ad conf = .ok s →
      s.dependencies = buildDependencies conf.dependencies) := by
  refine ⟨?_, rfl, rfl, rfl, rfl, rfl, ?_, ?_⟩
  · intro t h1 h2 h3
    unfold resolveDependencyType
    rw [if_neg (by simpa [JobSpecDependencyType.str] using h1),
      if_neg (by simpa [JobSpecDependencyType.str] using h2),
      if_neg (by simpa [JobSpecDependencyType.str] using h3)]
  · intro ds
    constructor
    · rintro ⟨s, hs⟩
      rw [ToSpec_ok_iff] at hs
      obtain ⟨sd, ed, hooks, window, execUnit, u1, u2, u3, u4, u5, -⟩ := hs
      refine ⟨_, (ToSpec_ok_iff ad conf _).2
        ⟨sd, ed, hooks, window, execUnit, by exact u1, by exact u2, by exact u3,
          by exact u4, by exact u5, rfl⟩⟩
    · rintro ⟨s, hs⟩
      rw [ToSpec_ok_iff] at hs
      obtain ⟨sd, ed, hooks, window, execUnit, u1, u2, u3, u4, u5, -⟩ := hs
      refine ⟨_, (ToSpec_ok_iff ad { conf with dependencies := ds } _).2
        ⟨sd, ed, hooks, window, execUnit, by exact u1, by exact u2, by exact u3,
          by exact u4, by exact u5, rfl⟩⟩
  · intro s hs
    rw [ToSpec_ok_iff] at hs
    obtain ⟨sd, ed, hooks, window, execUnit, -, -, -, -, -, hspec⟩ := hs
    rw [hspec]

/-- A job with one dependency of each unknown-type shape. -/
def bogusDepJob : Job :=
  { sampleJob with
    dependencies := [{ jobName := "x", type := "bogus" }, { jobName := "y", type := "" }] }

/-- The domain spec `sampleJob` converts to. -/
def sampleJobSpec : JobSpec :=
  { version := 1
    name := "sample_job"
    owner := "optimus"
    description := "a job"
    labels := [("orchestrator", "optimus")]
    schedule := { startDate := ⟨2021, 1, 2⟩, endDate := none, interval := "0 2 * * *" }
    behavior := { catchUp := true, dependsOnPast := false }
    task := {
      unit := some ⟨"bq2bq"⟩
      config := [("project", "godata")]
      window := { size := 86400000000000, offset := 0, truncateTo := "d" } }
    assets := [("query.sql", "select 1")]
    dependencies := [("foo", ⟨.intra⟩)]
    hooks := [{ config := [("kafka", "broker")], unit := ⟨"transporter"⟩ }] }

/-- Witness for C5: a job whose dependencies carry `"bogus"` and empty
type strings still converts, to intra-project dependencies. -/
theorem c5_dependency_type_fallback_check :
    resolveDependencyType "bogus" = .intra ∧
    (∃ s, JobSpecAdapter.ToSpec sampleAdapter bogusDepJob = .ok s) ∧
    (∀ s, JobSpecAdapter.ToSpec sampleAdapter bogusDepJob = .ok s →
      s.dependencies = [("x", ⟨.intra⟩), ("y", ⟨.intra⟩)]) := by
  refine ⟨(c5_dependency_type_fallback sampleAdapter sampleJob).2.2.2.2.2.1, ?_, ?_⟩
  · exact ⟨{ sampleJobSpec with
        dependencies := [("x", ⟨.intra⟩), ("y", ⟨.intra⟩)] }, by decide⟩
  · intro s hs
    have h2 := (c5_dependency_type_fallback sampleAdapter bogusDepJob).2.2.2.2.2.2.2 s hs
    rw [h2]
    rfl

/-- C6: an unregistered task name, or any unregistered hook name, makes
`ToSpec` return an error (in the embedding the `Except` error carries no
partial domain object, matching Go's return of the zero `JobSpec`
alongside the error), and the hook loop fails fast on the first
unresolved hook. -/
theorem c6_unresolved_plugin_error (ad : JobSpecAdapter) (conf : Job) :
    (∀ e, repoGetByName ad.supportedTaskRepo conf.task.name = .error e →
      ∃ msg, JobSpecAdapter.ToSpec ad conf = .error msg) ∧
    (∀ hk, hk ∈ conf.hooks →
      ∀ e, repoGetByName ad.supportedHookRepo hk.name = .error e →
      ∃ msg, JobSpecAdapter.ToSpec ad conf = .error msg) ∧
    (∀ hk rest e, JobHook.ToSpec hk ad.supportedHookRepo = .error e →
      adaptHooks ad.supportedHookRepo (hk :: rest) = .error e) := by
  refine ⟨?_, ?_, ?_⟩
  · intro e he
    rcases hts : JobSpecAdapter.ToSpec ad conf with msg | s
    · exact ⟨msg, rfl⟩
    · exfalso
      rw [ToSpec_ok_iff] at hts
      obtain ⟨-, -, -, -, execUnit, -, -, -, -, u5, -⟩ := hts
      rw [he] at u5
      exact absurd u5 (by simp)
  · intro hk hmem e he
    rcases hts : JobSpecAdapter.ToSpec ad conf with msg | s
    · exact ⟨msg, rfl⟩
    · exfalso
      rw [ToSpec_ok_iff] at hts
      obtain ⟨-, -, hooks, -, -, -, -, u3, -, -, -⟩ := hts
      obtain ⟨-, hres⟩ := adaptHooks_ok_inv u3
      obtain ⟨u, hu⟩ := hres hk hmem
      rw [he] at hu
      exact absurd hu (by simp)
  · intro hk rest e he
    exact adaptHooks_error_head rest he

/-- A job referencing an unregistered task. -/
def unknownTaskJob : Job := { sampleJob with task := { sampleJob.task with name := "nosuch" } }

/-- A job referencing an unregistered hook. -/
def unknownHookJob : Job :=
  { sampleJob with hooks := [{ name := "nosuchhook", config := [] },
      { name := "transporter", config := [("kafka", "broker")] }] }

/-- Witness for C6: with the sample registries, an unknown task name
and an unknown hook name each abort the conversion with an error. -/
theorem c6_unresolved_plugin_error_check :
    (∃ msg, JobSpecAdapter.ToSpec sampleAdapter unknownTaskJob = .error msg) ∧
    (∃ msg, JobSpecAdapter.ToSpec sampleAdapter unknownHookJob = .error msg) :=
  ⟨(c6_unresolved_plugin_error sampleAdapter unknownTaskJob).1
      ("not found: " ++ "nosuch") (by decide),
    (c6_unresolved_plugin_error sampleAdapter unknownHookJob).2.1
      { name := "nosuchhook", config := [] } (by decide)
      ("not found: " ++ "nosuchhook") (by decide)⟩

/-! ### Claim C2: the adapter round trip -/

/-- C2 (amended): for every on-disk job that converts without error,
`FromSpec` after `ToSpec` succeeds and preserves the owner, the
formatted schedule start and end dates (verbatim, since the strict date
grammar only accepts canonically formatted dates), both behavior flags,
and the hook names; the name is preserved up to the whitespace trimming
`ToSpec` applies, and the dependency set is preserved after
canonicalization — each type string resolved through the
known-enum-or-intra fallback and duplicate job names collapsed by the
dependency map, later entries overwriting earlier ones. -/
theorem c2_roundtrip_preservation (ad : JobSpecAdapter) (m : Job) (spec : JobSpec)
    (h : JobSpecAdapter.ToSpec ad m = .ok spec) :
    ∃ m2, JobSpecAdapter.FromSpec ad spec = .ok m2 ∧
      m2.name = trimSpace m.name ∧
      m2.owner = m.owner ∧
      m2.schedule.startDate = m.schedule.startDate ∧
      m2.schedule.endDate = m.schedule.endDate ∧
      m2.behavior.dependsOnPast = m.behavior.dependsOnPast ∧
      m2.behavior.catchup = m.behavior.catchup ∧
      m2.hooks.map JobHook.name = m.hooks.map JobHook.name ∧
      (∀ p : String × String,
        p ∈ m2.dependencies.map (fun d => (d.jobName, d.type)) ↔
          p ∈ (buildDependencies m.dependencies).map (fun q => (q.1, q.2.type.str))) := by
  rw [ToSpec_ok_iff] at h
  obtain ⟨sd, ed, hooks, window, execUnit, h1, h2, h3, h4, h5, hspec⟩ := h
  subst hspec
  refine ⟨_, rfl, rfl, rfl, ?_, ?_, rfl, rfl, ?_, ?_⟩
  · exact formatDate_parseDate h1
  · rcases parseEndDate_ok_inv h2 with ⟨hempty, rfl⟩ | ⟨hne, e, hpe, rfl⟩
    · exact hempty.symm
    · exact formatDate_parseDate hpe
  · rw [List.map_map]
    exact (adaptHooks_ok_inv h3).1
  · intro p
    rw [List.map_map]
    exact Iff.rfl

/-- Witness for C2 (amended) at the sample job. -/
theorem c2_roundtrip_preservation_check :
    ∃ m2, JobSpecAdapter.FromSpec sampleAdapter sampleJobSpec = .ok m2 ∧
      m2.name = trimSpace sampleJob.name ∧
      m2.owner = sampleJob.owner ∧
      m2.schedule.startDate = sampleJob.schedule.startDate ∧
      m2.schedule.endDate = sampleJob.schedule.endDate ∧
      m2.behavior.dependsOnPast = sampleJob.behavior.dependsOnPast ∧
      m2.behavior.catchup = sampleJob.behavior.catchup ∧
      m2.hooks.map JobHook.name = sampleJob.hooks.map JobHook.name ∧
      (∀ p : String × String,
        p ∈ m2.dependencies.map (fun d => (d.jobName, d.type)) ↔
          p ∈ (buildDependencies sampleJob.dependencies).map
            (fun q => (q.1, q.2.type.str))) :=
  c2_roundtrip_preservation sampleAdapter sampleJob sampleJobSpec (by decide)

/-- An on-disk job that is valid (its fields meet the documented
constraints) and converts without error, but whose name carries
surrounding white space and whose dependency list carries an unknown
type string and a duplicated job name. -/
def paddedJob : Job :=
  { sampleJob with
    name := " sample_job "
    schedule := { startDate := "2021-01-02", endDate := "2021-03-04", interval := "0 2 * * *" }
    dependencies := [{ jobName := "x", type := "bogus" },
      { jobName := "dup", type := "inter" }, { jobName := "dup", type := "intra" }] }

/-- The domain spec `paddedJob` converts to. -/
def paddedJobSpec : JobSpec :=
  { version := 1
    name := "sample_job"
    owner := "optimus"
    description := "a job"
    labels := [("orchestrator", "optimus")]
    schedule := {
      startDate := ⟨2021, 1, 2⟩
      endDate := some ⟨2021, 3, 4⟩
      interval := "0 2 * * *" }
    behavior := { catchUp := true, dependsOnPast := false }
    task := {
      unit := some ⟨"bq2bq"⟩
      config := [("project", "godata")]
      window := { size := 86400000000000, offset := 0, truncateTo := "d" } }
    assets := [("query.sql", "select 1")]
    dependencies := [("x", ⟨.intra⟩), ("dup", ⟨.intra⟩)]
    hooks := [{ config := [("kafka", "broker")], unit := ⟨"transporter"⟩ }] }

/-- What the round trip gives back for `paddedJob`. -/
def paddedJobRound : Job :=
  { version := 1
    name := "sample_job"
    owner := "optimus"
    description := "a job"
    schedule := { startDate := "2021-01-02", endDate := "2021-03-04", interval := "0 2 * * *" }
    behavior := { dependsOnPast := false, catchup := true }
    task := {
      name := "bq2bq"
      config := [("project", "godata")]
      window := { size := "24h0m0s", offset := "0s", truncateTo := "d" } }
    asset := [("query.sql", "select 1")]
    labels := [("orchestrator", "optimus")]
    dependencies := [{ jobName := "x", type := "intra" }, { jobName := "dup", type := "intra" }]
    hooks := [{ name := "transporter", config := [("kafka", "broker")] }] }

/-- Counterexample to C2 as stated: `paddedJob` converts without error,
but the round trip returns the trimmed name, not the original, and the
dependency set as `{job, type}` pairs is not preserved — the pairs
`("x", "bogus")` and `("dup", "inter")` of the input are absent from
the round-tripped job. -/
theorem c2_roundtrip_counterexample :
    JobSpecAdapter.ToSpec sampleAdapter paddedJob = .ok paddedJobSpec ∧
    JobSpecAdapter.FromSpec sampleAdapter paddedJobSpec = .ok paddedJobRound ∧
    paddedJobRound.name ≠ paddedJob.name ∧
    ("x", "bogus") ∈ paddedJob.dependencies.map (fun d => (d.jobName, d.type)) ∧
    ("x", "bogus") ∉ paddedJobRound.dependencies.map (fun d => (d.jobName, d.type)) ∧
    ("dup", "inter") ∈ paddedJob.dependencies.map (fun d => (d.jobName, d.type)) ∧
    ("dup", "inter") ∉ paddedJobRound.dependencies.map (fun d => (d.jobName, d.type)) :=
  ⟨by decide, by decide, by decide, by decide, by decide, by decide, by decide⟩

/-! ### Claims about the deployment session -/

/-- Every request the resource phase issues is a resource deployment
request. -/
theorem resourcePhase_trace_shape (f : String → Except String String)
    (dss : List DatastoreEnv) :
    ∀ q ∈ (resourcePhase f dss).1, ∃ s, q = .deployResourceSpecification s := by
  induction dss with
  | nil => simp [resourcePhase]
  | cons ds rest ih =>
    unfold resourcePhase
    rcases h1 : ds.getByName with e | u
    · simp
    · rcases h2 : ds.resourceSpecs with e | specs
      · simp
      · rcases h3 : adaptAll f specs with e | ps
        · simp [h3]
        · rcases h4 : ds.streamOpen with e | stream
          · simp [h3, h4]
          · rcases h5 : (consumeStream 0 stream).result with e | u2
            · simp [h3, h4, h5]
            · rcases hrp : resourcePhase f rest with ⟨t, o⟩
              simp only [h3, h4, h5, hrp, List.mem_cons]
              rintro q (rfl | hq)
              · exact ⟨ds.storeName, rfl⟩
              · have := ih q
                rw [hrp] at this
                exact this hq

/-- Every request the job phase issues is the job deployment request. -/
theorem jobPhase_trace_shape (env : DeployEnv) :
    ∀ q ∈ (jobPhase env).1, q = .deployJobSpecification := by
  unfold jobPhase
  rcases h1 : env.jobSpecs with e | specs
  · simp
  · rcases h2 : adaptAll env.adaptJob specs with e | ps
    · simp [h2]
    · rcases h3 : env.jobStreamOpen with e | stream
      · simp [h2, h3]
      · rcases h4 : (consumeStream 0 stream).result with e | u
        · simp [h2, h3, h4]
        · simp [h2, h3, h4]

/-- C7: in the stream consumer, a received message with `ack` true and
`success` false makes the loop return the error naming that item at
once — one `Recv` consumed, whatever follows unread, the counter
unchanged; a message with `ack` false leaves the counter and the
outcome exactly those of the rest of the stream (it is only logged,
never terminates the stream, fails it, or increments the counter); and
through `postDeploymentRequest` such a failing ack fails the deployment
with that item's error. -/
theorem c7_stream_consumer_protocol :
    (∀ counter n msg rest,
      consumeStream counter (.ok ⟨true, false, n, msg⟩ :: rest) =
        ⟨counter, .error ("unable to deploy: " ++ n ++ " " ++ msg), 1⟩) ∧
    (∀ counter r rest, r.ack = false →
      consumeStream counter (.ok r :: rest) =
        ⟨(consumeStream counter rest).counter, (consumeStream counter rest).result,
          (consumeStream counter rest).consumed + 1⟩) ∧
    (∀ env n msg rest specs ps resp,
      env.conn = .ok () →
      env.registerProject = .ok resp → resp.success = true →
      env.jobSpecs = .ok specs →
      adaptAll env.adaptJob specs = .ok ps →
      env.jobStreamOpen = .ok (.ok ⟨true, false, n, msg⟩ :: rest) →
      postDeploymentRequest env false true =
        ⟨[.registerProject, .deployJobSpecification],
          .fail ("unable to deploy: " ++ n ++ " " ++ msg)⟩) := by
  refine ⟨?_, ?_, ?_⟩
  · intro counter n msg rest
    simp [consumeStream]
  · intro counter r rest hr
    simp [consumeStream, hr]
  · intro env n msg rest specs ps resp hc hr hs hj ha hjs
    unfold postDeploymentRequest
    rw [hc, hr]
    simp only [hs, Bool.not_true, Bool.false_eq_true, if_false, if_pos, if_true]
    unfold jobPhase
    simp only [hj, ha, hjs]
    simp [consumeStream]

/-- An environment whose job stream acks the first job as failed. -/
def failingAckEnv : DeployEnv :=
  { conn := .ok ()
    registerProject := .ok { success := true, message := "" }
    datastores := []
    adaptResource := fun s => .ok s
    jobSpecs := .ok ["job_x"]
    adaptJob := fun s => .ok s
    jobStreamOpen := .ok [.ok ⟨true, false, "job_x", "boom"⟩, .ok ⟨true, true, "job_y", ""⟩] }

/-- Witness for C7: a concrete failing ack aborts with one message
consumed, a progress message is transparent, and the deployment fails
naming the item. -/
theorem c7_stream_consumer_protocol_check :
    consumeStream 0 [Except.ok ⟨true, false, "res_b", "boom"⟩, .ok ⟨true, true, "res_c", ""⟩] =
      ⟨0, .error ("unable to deploy: " ++ "res_b" ++ " " ++ "boom"), 1⟩ ∧
    consumeStream 2 [Except.ok ⟨false, true, "res_a", "progressing"⟩] =
      ⟨(consumeStream 2 []).counter, (consumeStream 2 []).result,
        (consumeStream 2 []).consumed + 1⟩ ∧
    postDeploymentRequest failingAckEnv false true =
      ⟨[.registerProject, .deployJobSpecification],
        .fail ("unable to deploy: " ++ "job_x" ++ " " ++ "boom")⟩ :=
  ⟨c7_stream_consumer_protocol.1 0 "res_b" "boom" [.ok ⟨true, true, "res_c", ""⟩],
    c7_stream_consumer_protocol.2.1 2 ⟨false, true, "res_a", "progressing"⟩ [] rfl,
    c7_stream_consumer_protocol.2.2 failingAckEnv "job_x" "boom"
      [.ok ⟨true, true, "job_y", ""⟩] ["job_x"] ["job_x"] { success := true, message := "" }
      rfl rfl rfl rfl (by decide) rfl⟩

/-- C8: a transport error from `RegisterProject`, or a response with
`success` false, fails the whole run before any resource or job
deployment request is issued — the trace holds at most the register
request itself. -/
theorem c8_register_gate (env : DeployEnv) (ignoreJobs ignoreRes : Bool) :
    (∀ e, env.registerProject = .error e →
      (∃ msg, (postDeploymentRequest env ignoreJobs ignoreRes).outcome = .fail msg) ∧
      ∀ q ∈ (postDeploymentRequest env ignoreJobs ignoreRes).trace, q = .registerProject) ∧
    (∀ resp, env.registerProject = .ok resp → resp.success = false →
      (∃ msg, (postDeploymentRequest env ignoreJobs ignoreRes).outcome = .fail msg) ∧
      ∀ q ∈ (postDeploymentRequest env ignoreJobs ignoreRes).trace, q = .registerProject) := by
  constructor
  · intro e he
    unfold postDeploymentRequest
    rcases env.conn with e2 | u
    · exact ⟨⟨e2, rfl⟩, by simp⟩
    · rw [he]
      exact ⟨⟨_, rfl⟩, by simp⟩
  · intro resp hr hs
    unfold postDeploymentRequest
    rcases env.conn with e2 | u
    · exact ⟨⟨e2, rfl⟩, by simp⟩
    · rw [hr]
      simp only [hs, Bool.not_false, if_true]
      exact ⟨⟨_, rfl⟩, by simp⟩

/-- An environment whose project registration is refused. -/
def refusedRegisterEnv : DeployEnv :=
  { failingAckEnv with registerProject := .ok { success := false, message := "nope" } }

/-- Witness for C8 at a concrete refused registration. -/
theorem c8_register_gate_check :
    (∃ msg, (postDeploymentRequest refusedRegisterEnv false false).outcome = .fail msg) ∧
    ∀ q ∈ (postDeploymentRequest refusedRegisterEnv false false).trace,
      q = .registerProject :=
  (c8_register_gate refusedRegisterEnv false false).2
    { success := false, message := "nope" } rfl rfl

/-- C9: resource and job deployment are strictly sequential — in every
run's request trace all resource deployment requests precede any job
deployment request — and when the resource phase fails (adaptation,
sending, or stream consumption), `postDeploymentRequest` returns that
failure with only the register and resource requests issued, so jobs
are never attempted. -/
theorem c9_sequential_phases (env : DeployEnv) (ignoreJobs ignoreRes : Bool) :
    (∃ t1 t2, (postDeploymentRequest env ignoreJobs ignoreRes).trace = t1 ++ t2 ∧
      (∀ q ∈ t1, q ≠ .deployJobSpecification) ∧
      (∀ q ∈ t2, ∀ s, q ≠ .deployResourceSpecification s)) ∧
    (∀ resp t e, env.conn = .ok () → env.registerProject = .ok resp →
      resp.success = true →
      resourcePhase env.adaptResource env.datastores = (t, .fail e) →
      postDeploymentRequest env ignoreJobs false = ⟨.registerProject :: t, .fail e⟩ ∧
      .deployJobSpecification ∉ (postDeploymentRequest env ignoreJobs false).trace) := by
  constructor
  · rcases hc : env.conn with e | u
    · refine ⟨[], [], ?_, by simp, by simp⟩
      unfold postDeploymentRequest
      simp [hc]
    · rcases hr : env.registerProject with e | resp
      · refine ⟨[.registerProject], [], ?_, by simp, by simp⟩
        unfold postDeploymentRequest
        simp [hc, hr]
      · by_cases hs : resp.success = true
        · by_cases hIR : ignoreRes
          · by_cases hIJ : ignoreJobs
            · refine ⟨[.registerProject], [], ?_, by simp, by simp⟩
              unfold postDeploymentRequest
              simp [hc, hr, hs, hIR, hIJ]
            · rcases hjp : jobPhase env with ⟨jt, jo⟩
              have hjt : ∀ q ∈ jt, q = .deployJobSpecification := by
                have := jobPhase_trace_shape env
                rw [hjp] at this
                exact this
              refine ⟨[.registerProject], jt, ?_, by simp, ?_⟩
              · unfold postDeploymentRequest
                simp [hc, hr, hs, hIR, hIJ, hjp]
              · intro q hq s
                rw [hjt q hq]
                simp
          · rcases hrp : resourcePhase env.adaptResource env.datastores with ⟨rt, ro⟩
            have hrt : ∀ q ∈ rt, ∃ s, q = .deployResourceSpecification s := by
              have := resourcePhase_trace_shape env.adaptResource env.datastores
              rw [hrp] at this
              exact this
            have hrt2 : ∀ q ∈ .registerProject :: rt, q ≠ DeployReq.deployJobSpecification := by
              intro q hq
              rcases hq with _ | hq
              · simp
              · obtain ⟨s, rfl⟩ := hrt q (by assumption)
                simp
            rcases ro with - | e | e
            · by_cases hIJ : ignoreJobs
              · refine ⟨.registerProject :: rt, [], ?_, hrt2, by simp⟩
                unfold postDeploymentRequest
                simp [hc, hr, hs, hIR, hIJ, hrp]
              · rcases hjp : jobPhase env with ⟨jt, jo⟩
                have hjt : ∀ q ∈ jt, q = .deployJobSpecification := by
                  have := jobPhase_trace_shape env
                  rw [hjp] at this
                  exact this
                refine ⟨.registerProject :: rt, jt, ?_, hrt2, ?_⟩
                · unfold postDeploymentRequest
                  simp [hc, hr, hs, hIR, hIJ, hrp, hjp]
                · intro q hq s
                  rw [hjt q hq]
                  simp
            · refine ⟨.registerProject :: rt, [], ?_, hrt2, by simp⟩
              unfold postDeploymentRequest
              simp [hc, hr, hs, hIR, hrp]
            · refine ⟨.registerProject :: rt, [], ?_, hrt2, by simp⟩
              unfold postDeploymentRequest
              simp [hc, hr, hs, hIR, hrp]
        · refine ⟨[.registerProject], [], ?_, by simp, by simp⟩
          unfold postDeploymentRequest
          simp [hc, hr, hs]
  · intro resp t e hcp hrp2 hsp hres
    have hpost : postDeploymentRequest env ignoreJobs false =
        ⟨.registerProject :: t, .fail e⟩ := by
      unfold postDeploymentRequest
      simp [hcp, hrp2, hsp, hres]
    refine ⟨hpost, ?_⟩
    rw [hpost]
    simp only [List.mem_cons]
    rintro (h | h)
    · simp at h
    · have := resourcePhase_trace_shape env.adaptResource env.datastores
      rw [hres] at this
      obtain ⟨s, hqs⟩ := this _ h
      simp at hqs

/-- An environment whose only datastore's stream acks its resource as
failed. -/
def failingResourceEnv : DeployEnv :=
  { failingAckEnv with
    datastores := [{
      storeName := "bigquery"
      getByName := .ok ()
      resourceSpecs := .ok ["tab1"]
      streamOpen := .ok [.ok ⟨true, false, "tab1", "denied"⟩] }] }

/-- Witness for C9 at a concrete failing resource deployment: the run
stops with the resource error and no job request is ever issued. -/
theorem c9_sequential_phases_check :
    postDeploymentRequest failingResourceEnv false false =
      ⟨[.registerProject, .deployResourceSpecification "bigquery"],
        .fail ("unable to deploy: " ++ "tab1" ++ " " ++ "denied")⟩ ∧
    .deployJobSpecification ∉ (postDeploymentRequest failingResourceEnv false false).trace :=
  (c9_sequential_phases failingResourceEnv false false).2
    { success := true, message := "" } [.deployResourceSpecification "bigquery"]
    ("unable to deploy: " ++ "tab1" ++ " " ++ "denied") rfl rfl rfl (by decide)

end Optimus
